import Mathlib

/-
  Shallow embedding of the synergyalphaapi background refresh engine
  (src/update_manager.py), the merge engine (process_single_stock),
  the storage upsert (src/database.py), and the realtime subscription
  fan-out (src/realtime_prices.py), with theorems checking the
  natural-language specification against the embedded code.
-/

namespace SynergyAlpha

/-! ### Market status (class MarketStatus, src/update_manager.py lines 64-68) -/

inductive MarketStatus where
  | closed
  | open_
  | preMarket
  | afterHours
deriving DecidableEq, Repr

/-- Embedding of `UpdateManager._get_current_market_status`
(src/update_manager.py lines 320-357).  The Python code reads the current
wall-clock instant in US/Eastern; here the instant is given as the weekday
(`Monday = 0 .. Sunday = 6`, as Python's `datetime.weekday`) and the
time of day in seconds.  4:00 = 14400 s, 9:30 = 34200 s, 16:00 = 57600 s,
20:00 = 72000 s. -/
def getCurrentMarketStatus (weekday : ℕ) (t : ℕ) : MarketStatus :=
  if 5 ≤ weekday then MarketStatus.closed
  else if 14400 ≤ t ∧ t < 34200 then MarketStatus.preMarket
  else if 34200 ≤ t ∧ t < 57600 then MarketStatus.open_
  else if 57600 ≤ t ∧ t < 72000 then MarketStatus.afterHours
  else MarketStatus.closed

/-! ### Stored record fields consulted by `_check_symbol_for_updates` -/

/-- The fields of a stored company document that
`UpdateManager._check_symbol_for_updates` consults.  `lastUpdated` is the
parsed `last_updated` timestamp (`none` when the field is absent or falsy);
`price` and `volume` are the stored top-level `price` and nested
`quote.volume`; `marketStatus` is the stored `market_status` tag;
`finHash` the stored `financial_data_hash`; `image` the stored logo blob. -/
structure DbData where
  lastUpdated : Option ℤ
  price : Option ℚ
  volume : Option ℚ
  marketStatus : Option MarketStatus
  finHash : Option String
  image : Option String
deriving DecidableEq, Repr

/-- Python truthiness of an optional numeric field: present and nonzero. -/
def truthyNum (o : Option ℚ) : Bool :=
  match o with
  | some q => decide (q ≠ 0)
  | none => false

/-- Python truthiness of an optional string field: present and nonempty. -/
def truthyStr (o : Option String) : Bool :=
  match o with
  | some s => decide (s ≠ "")
  | none => false

/-- Outcome of the live Yahoo Finance 1-minute history fetch performed in
the OPEN branch of `_check_symbol_for_updates` (lines 219-243):
the fetch can raise (`ferr`), return an empty frame (`fempty`), or yield a
latest close price and volume (`fok`). -/
inductive LiveFetch where
  | ferr
  | fempty
  | fok (price : ℚ) (volume : ℚ)
deriving DecidableEq, Repr

/-- Outcome of the financial-statement hash computation in
`_check_symbol_for_updates` (lines 254-301): the fetch can raise (`herr`),
all statements can be empty so no hash is generated (`hempty`), or a hash
string is produced (`hsome`). -/
inductive HashFetch where
  | herr
  | hempty
  | hsome (h : String)
deriving DecidableEq, Repr

/-- The drift test of the OPEN branch (lines 230-232): price changed by
more than 0.1 percent or volume increased by more than 5 percent. -/
def driftCheck (dbPrice dbVolume latestPrice latestVolume : ℚ) : Bool :=
  decide (|((latestPrice - dbPrice) / dbPrice)| > 1 / 1000) ||
    decide (latestVolume > dbVolume * (105 / 100))

/-- The hash comparison of lines 288-296: a freshly generated hash that
differs from the stored `financial_data_hash` (absent counts as different);
no comparison happens when the fetch raised or all statements were empty. -/
def hashMismatch (d : DbData) (hash : HashFetch) : Bool :=
  match hash with
  | HashFetch.hsome h => decide (d.finHash ≠ some h)
  | _ => false

/-- The tail of `_check_symbol_for_updates` (lines 253-313), reached only by
falling through the OPEN branch: hash comparison, market-status transition
check, and missing-logo check, in that order; otherwise `false`. -/
def checkAfterBudget (d : DbData) (cur : MarketStatus) (hash : HashFetch) : Bool :=
  if hashMismatch d hash then true
  else if d.marketStatus ≠ some cur then true
  else if ¬ truthyStr d.image then true
  else false

/-- Embedding of `UpdateManager._check_symbol_for_updates`
(src/update_manager.py lines 177-318).  `cur` is the current
`cls._market_status`; `db` the stored document (`none` when the symbol is
absent from the database); `timeSince` the value of
`(datetime.now() - db_timestamp).total_seconds()`; `live` the outcome of
the OPEN-branch intraday fetch; `hash` the outcome of the
financial-statement hash computation.

Control flow mirrors the source: in the CLOSED, PRE_MARKET and AFTER_HOURS
branches the function returns at the staleness test; only the OPEN branch
with valid, non-drifting live data falls through to `checkAfterBudget`. -/
def checkSymbolForUpdates (cur : MarketStatus) (db : Option DbData)
    (timeSince : ℚ) (live : LiveFetch) (hash : HashFetch) : Bool :=
  match db with
  | none => true
  | some d =>
    match d.lastUpdated with
    | none => true
    | some _ =>
      match cur with
      | MarketStatus.closed =>
        if timeSince < 86400 ∧ d.marketStatus = some MarketStatus.closed then false
        else true
      | MarketStatus.preMarket =>
        if timeSince < 900 then false else true
      | MarketStatus.afterHours =>
        if timeSince < 1800 then false else true
      | MarketStatus.open_ =>
        if timeSince < 300 then false
        else
          match live with
          | LiveFetch.ferr => true
          | LiveFetch.fempty => true
          | LiveFetch.fok p v =>
            match d.price, d.volume with
            | some dp, some dv =>
              if truthyNum (some dp) ∧ truthyNum (some dv) ∧
                  truthyNum (some p) ∧ truthyNum (some v) then
                if driftCheck dp dv p v then true
                else checkAfterBudget d MarketStatus.open_ hash
              else true
            | _, _ => true

/-- The session-dependent staleness budgets of lines 201, 208, 215, 247,
in seconds: CLOSED 24 h, PRE_MARKET 15 min, OPEN 5 min, AFTER_HOURS 30 min. -/
def staleBudget (s : MarketStatus) : ℚ :=
  match s with
  | MarketStatus.closed => 86400
  | MarketStatus.preMarket => 900
  | MarketStatus.open_ => 300
  | MarketStatus.afterHours => 1800

/-! ### Batch update orchestrator (UpdateManager._process_updates and the
forced-symbol phase of UpdateManager._update_loop) -/

/-- The orchestrator's class-level shared state: `_is_updating`
(src/update_manager.py line 81) and `_force_refresh_symbols` (line 83). -/
structure OrchState where
  isUpdating : Bool
  forceRefresh : List String
deriving DecidableEq, Repr

/-- What a call to `_process_updates` did: started a run over the given
input list, or queued its symbols and returned without running. -/
inductive RunOutcome where
  | ran (input : List String)
  | queued
deriving DecidableEq, Repr

/-- Embedding of `UpdateManager._process_updates`
(src/update_manager.py lines 424-487).  If `_is_updating` is set, the
requested symbols are appended to `_force_refresh_symbols` and the call
returns immediately (lines 427-430).  Otherwise the flag is set, the run
body executes over `symbols` (it may raise, which the `except` at line 484
absorbs — `bodyFails` selects that path), and the `finally` block at
line 486-487 clears the flag on both paths. -/
def processUpdates (s : OrchState) (symbols : List String) (bodyFails : Bool) :
    OrchState × RunOutcome :=
  if s.isUpdating then
    ({ s with forceRefresh := s.forceRefresh ++ symbols }, RunOutcome.queued)
  else
    -- body runs with isUpdating set; the finally block clears it whether or
    -- not the body raised, so the post-state is identical on both paths
    match bodyFails with
    | true => ({ isUpdating := false, forceRefresh := s.forceRefresh }, RunOutcome.ran symbols)
    | false => ({ isUpdating := false, forceRefresh := s.forceRefresh }, RunOutcome.ran symbols)

/-- The forced-symbol phase at the top of `UpdateManager._update_loop`
(src/update_manager.py lines 134-138): when `_force_refresh_symbols` is
non-empty (Python list truthiness), the loop copies it, clears it, and
calls `_process_updates` on the copy.  Returns the post-state and the
outcome of that call (`none` when the queue was empty and no call was
made). -/
def updateLoopForcedPhase (s : OrchState) (bodyFails : Bool) :
    OrchState × Option RunOutcome :=
  match s.forceRefresh with
  | [] => (s, none)
  | x :: xs =>
    let s1 : OrchState := { s with forceRefresh := [] }
    let r := processUpdates s1 (x :: xs) bodyFails
    (r.1, some r.2)

/-! ### Subscription fan-out (class SubscriptionManager, src/realtime_prices.py) -/

/-- Model of Python's `str.upper()`, applied to tickers throughout
SubscriptionManager (`ticker.upper()`). -/
def pyUpper (s : String) : String := ⟨s.data.map Char.toUpper⟩

/-- State of a `SubscriptionManager` (src/realtime_prices.py lines 40-95):
`keys` is the key set of the `_subscriptions` defaultdict, and `conns t`
the set of connections stored under key `t` (connections are modelled as
natural-number handles).  For keys not in `keys`, `conns` is `∅`. -/
structure SubState where
  keys : Finset String
  conns : String → Finset ℕ

/-- The empty registry: a fresh `defaultdict(set)` with no keys. -/
def SubState.initial : SubState :=
  { keys := ∅, conns := fun _ => ∅ }

/-- Embedding of `SubscriptionManager.subscribe` (lines 48-52):
`self._subscriptions[ticker.upper()].add(websocket)` — the defaultdict
access creates the key if absent, then the connection is added. -/
def subscribe (st : SubState) (ticker : String) (c : ℕ) : SubState :=
  let t := pyUpper ticker
  { keys := insert t st.keys,
    conns := fun x => if x = t then insert c (st.conns t) else st.conns x }

/-- Embedding of `SubscriptionManager.unsubscribe` (lines 54-62): if the
key exists, the connection is discarded, and the key is deleted when its
set becomes empty. -/
def unsubscribe (st : SubState) (ticker : String) (c : ℕ) : SubState :=
  let t := pyUpper ticker
  if t ∈ st.keys then
    let s' := (st.conns t).erase c
    if s' = ∅ then
      { keys := st.keys.erase t,
        conns := fun x => if x = t then ∅ else st.conns x }
    else
      { keys := st.keys,
        conns := fun x => if x = t then s' else st.conns x }
  else st

/-- Embedding of `SubscriptionManager.get_active_tickers` (lines 64-67):
the key set of `_subscriptions`. -/
def getActiveTickers (st : SubState) : Finset String := st.keys

/-- Embedding of `SubscriptionManager.broadcast` (lines 69-95).  `sendOk c`
tells whether `websocket.send_json` succeeds for connection `c`.  Returns
the post-state, the set of connections a send was attempted to, and the
set of connections that received the message.  With zero subscribers the
function returns before any send (lines 75-76).  Failed connections are
collected and discarded from the ticker's set (lines 92-95) — note the
key itself is never deleted, and the defaultdict access
`self._subscriptions[ticker]` inserts the key if it is absent. -/
def broadcast (st : SubState) (ticker : String) (sendOk : ℕ → Bool) :
    SubState × Finset ℕ × Finset ℕ :=
  let t := pyUpper ticker
  let connections := if t ∈ st.keys then st.conns t else ∅
  if connections = ∅ then (st, ∅, ∅)
  else
    let delivered := connections.filter (fun c => sendOk c)
    let disconnected := connections.filter (fun c => ¬ sendOk c)
    if disconnected = ∅ then (st, connections, delivered)
    else
      ({ keys := insert t st.keys,
         conns := fun x => if x = t then st.conns t \ disconnected else st.conns x },
       connections, delivered)

/-! ### Multi-source merge engine (UpdateManager.process_single_stock,
src/update_manager.py lines 677-839) -/

/-- A JSON-ish value as stored in the combined data dictionary.  `vNull`
models a Python `None` nested inside a dict (top-level `None` is modelled
as `Option.none`); `vTime` a `datetime` value. -/
inductive Value where
  | vNull
  | vInt (n : ℤ)
  | vRat (q : ℚ)
  | vStr (s : String)
  | vBool (b : Bool)
  | vTime (t : ℤ)
  | vObj (fields : List (String × Value))
  | vList (items : List Value)

/-- The keys of the `combined_data` dictionary built at
src/update_manager.py lines 735-820, in source order. -/
inductive CKey where
  | ticker
  | price
  | beta
  | volAvg
  | mktCap
  | lastDiv
  | range
  | changes
  | companyName
  | currency
  | cusip
  | exchange
  | industry
  | website
  | description
  | sector
  | country
  | fullTimeEmployees
  | ceo
  | officers
  | phone
  | address
  | city
  | state
  | zip
  | image
  | quote
  | key_metrics
  | ttm_ratios
  | financial_statements
  | financial_data_hash
  | market_status
  | last_updated
deriving DecidableEq, Repr

/-- Every key of the combined dictionary, in source order. -/
def allCKeys : List CKey :=
  [CKey.ticker, CKey.price, CKey.beta, CKey.volAvg, CKey.mktCap, CKey.lastDiv,
   CKey.range, CKey.changes, CKey.companyName, CKey.currency, CKey.cusip,
   CKey.exchange, CKey.industry, CKey.website, CKey.description, CKey.sector,
   CKey.country, CKey.fullTimeEmployees, CKey.ceo, CKey.officers, CKey.phone,
   CKey.address, CKey.city, CKey.state, CKey.zip, CKey.image, CKey.quote,
   CKey.key_metrics, CKey.ttm_ratios, CKey.financial_statements,
   CKey.financial_data_hash, CKey.market_status, CKey.last_updated]

/-- The overlapping fields: keys supplied by both the Yahoo Finance dict
(lines 559-620) and the Finnhub dict (lines 649-670). -/
def overlapKeys : List CKey :=
  [CKey.price, CKey.beta, CKey.volAvg, CKey.mktCap, CKey.lastDiv,
   CKey.changes, CKey.companyName, CKey.currency, CKey.cusip, CKey.exchange,
   CKey.industry, CKey.website, CKey.description, CKey.sector, CKey.country,
   CKey.phone, CKey.address, CKey.city, CKey.state, CKey.zip]

/-- The helper `get_first_value` (line 720-721) restricted to two
arguments: the first argument that is not `None`. -/
def getFirstValue2 (a b : Option Value) : Option Value :=
  match a with
  | some v => some v
  | none => b

/-- The helper `get_first_value` applied to three arguments, as in the
`currency` field (lines 751-755). -/
def getFirstValue3 (a b c : Option Value) : Option Value :=
  match a with
  | some v => some v
  | none =>
    match b with
    | some v => some v
    | none => c

/-- Python `int(x)` truncation toward zero of a rational value. -/
def ratTrunc (q : ℚ) : ℤ := q.num.tdiv (q.den : ℤ)

/-- The helper `ensure_type(value, int)` (lines 723-732): `None` stays
`None`; a float is truncated with `int(value)`; an int passes through;
a bool converts to 0/1; a numeric string parses; anything else raises
`ValueError`/`TypeError`, which is caught and mapped to `None`. -/
def ensureInt (v : Value) : Option Value :=
  match v with
  | Value.vInt n => some (Value.vInt n)
  | Value.vRat q => some (Value.vInt (ratTrunc q))
  | Value.vBool b => some (Value.vInt (if b then 1 else 0))
  | Value.vStr s => (s.toInt?).map Value.vInt
  | _ => none

/-- `ensure_type` on an optional value (`if value is None: return None`). -/
def ensureOptInt (o : Option Value) : Option Value :=
  match o with
  | some v => ensureInt v
  | none => none

/-- `finnhub_data.get(k) if finnhub_data else None`. -/
def fhGet (fh : Option (CKey → Option Value)) (k : CKey) : Option Value :=
  match fh with
  | some g => g k
  | none => none

/-- `yf_data.get('quote', {}).get(s)`-style nested access: look up a
sub-key in a dict-valued field, `None` when the field is absent or the
sub-key missing. -/
def objField (o : Option Value) (s : String) : Value :=
  match o with
  | some (Value.vObj l) => (l.lookup s).getD Value.vNull
  | _ => Value.vNull

/-- A top-level optional value placed inside a nested dict literal
(Python keeps the `None`). -/
def optVal (o : Option Value) : Value :=
  match o with
  | some v => v
  | none => Value.vNull

/-- The string tag of a market status (class MarketStatus, lines 64-68). -/
def statusStr (s : MarketStatus) : String :=
  match s with
  | MarketStatus.closed => "closed"
  | MarketStatus.open_ => "open"
  | MarketStatus.preMarket => "pre_market"
  | MarketStatus.afterHours => "after_hours"

/-- The `combined_data` dictionary of src/update_manager.py lines 735-820,
as a map from key to optional value (a `none` entry is a Python `None`,
removed afterwards by the null-stripping comprehension at line 823).
`yfOpt` is `yf_data` (`none` when the Yahoo fetch failed; the code then
replaces it by `{}`, line 716-717); `fh` is `finnhub_data`; `logo` the
fetched logo; `now` the wall-clock time; `status` is `cls._market_status`. -/
def combineData (symbol : String) (now : ℤ) (status : MarketStatus)
    (yfOpt : Option (CKey → Option Value)) (fh : Option (CKey → Option Value))
    (logo : Option String) : CKey → Option Value :=
  let yfm : CKey → Option Value := fun k =>
    match yfOpt with
    | some g => g k
    | none => none
  fun k =>
    match k with
    | CKey.ticker => some (Value.vStr symbol)
    | CKey.price => getFirstValue2 (yfm CKey.price) (fhGet fh CKey.price)
    | CKey.beta => getFirstValue2 (yfm CKey.beta) (fhGet fh CKey.beta)
    | CKey.volAvg => ensureOptInt (getFirstValue2 (yfm CKey.volAvg) (fhGet fh CKey.volAvg))
    | CKey.mktCap => getFirstValue2 (yfm CKey.mktCap) (fhGet fh CKey.mktCap)
    | CKey.lastDiv => getFirstValue2 (yfm CKey.lastDiv) (fhGet fh CKey.lastDiv)
    | CKey.range => yfm CKey.range
    | CKey.changes => getFirstValue2 (yfm CKey.changes) (fhGet fh CKey.changes)
    | CKey.companyName => getFirstValue2 (yfm CKey.companyName) (fhGet fh CKey.companyName)
    | CKey.currency =>
      getFirstValue3 (yfm CKey.currency) (fhGet fh CKey.currency) (some (Value.vStr "USD"))
    | CKey.cusip => getFirstValue2 (yfm CKey.cusip) (fhGet fh CKey.cusip)
    | CKey.exchange => getFirstValue2 (yfm CKey.exchange) (fhGet fh CKey.exchange)
    | CKey.industry => getFirstValue2 (yfm CKey.industry) (fhGet fh CKey.industry)
    | CKey.website => getFirstValue2 (yfm CKey.website) (fhGet fh CKey.website)
    | CKey.description => getFirstValue2 (yfm CKey.description) (fhGet fh CKey.description)
    | CKey.sector => getFirstValue2 (yfm CKey.sector) (fhGet fh CKey.sector)
    | CKey.country => getFirstValue2 (yfm CKey.country) (fhGet fh CKey.country)
    | CKey.fullTimeEmployees => ensureOptInt (yfm CKey.fullTimeEmployees)
    | CKey.ceo => yfm CKey.ceo
    | CKey.officers => yfm CKey.officers
    | CKey.phone => getFirstValue2 (yfm CKey.phone) (fhGet fh CKey.phone)
    | CKey.address => getFirstValue2 (yfm CKey.address) (fhGet fh CKey.address)
    | CKey.city => getFirstValue2 (yfm CKey.city) (fhGet fh CKey.city)
    | CKey.state => getFirstValue2 (yfm CKey.state) (fhGet fh CKey.state)
    | CKey.zip => getFirstValue2 (yfm CKey.zip) (fhGet fh CKey.zip)
    | CKey.image => logo.map Value.vStr
    | CKey.quote => some (Value.vObj
        [("price", optVal (getFirstValue2 (yfm CKey.price) (fhGet fh CKey.price))),
         ("change", objField (yfm CKey.quote) "change"),
         ("changesPercentage", objField (yfm CKey.quote) "changesPercentage"),
         ("volume", objField (yfm CKey.quote) "volume"),
         ("avgVolume", objField (yfm CKey.quote) "avgVolume"),
         ("previousClose", objField (yfm CKey.quote) "previousClose"),
         ("dayLow", objField (yfm CKey.quote) "dayLow"),
         ("dayHigh", objField (yfm CKey.quote) "dayHigh"),
         ("yearLow", objField (yfm CKey.quote) "yearLow"),
         ("yearHigh", objField (yfm CKey.quote) "yearHigh"),
         ("marketCap", objField (yfm CKey.quote) "marketCap"),
         ("timestamp", Value.vTime now)])
    | CKey.key_metrics => some (Value.vObj
        [("pe_ratio", objField (yfm CKey.key_metrics) "pe_ratio"),
         ("forward_pe", objField (yfm CKey.key_metrics) "forward_pe"),
         ("peg_ratio", objField (yfm CKey.key_metrics) "peg_ratio"),
         ("price_to_book", objField (yfm CKey.key_metrics) "price_to_book"),
         ("price_to_sales", objField (yfm CKey.key_metrics) "price_to_sales"),
         ("beta", objField (yfm CKey.key_metrics) "beta"),
         ("dividend_rate", objField (yfm CKey.key_metrics) "dividend_rate"),
         ("dividend_yield", objField (yfm CKey.key_metrics) "dividend_yield")])
    | CKey.ttm_ratios => some (Value.vObj
        [("profit_margin", objField (yfm CKey.ttm_ratios) "profit_margin"),
         ("operating_margin", objField (yfm CKey.ttm_ratios) "operating_margin"),
         ("roa", objField (yfm CKey.ttm_ratios) "roa"),
         ("roe", objField (yfm CKey.ttm_ratios) "roe"),
         ("revenue_growth", objField (yfm CKey.ttm_ratios) "revenue_growth"),
         ("earnings_growth", objField (yfm CKey.ttm_ratios) "earnings_growth")])
    | CKey.financial_statements => some ((yfm CKey.financial_statements).getD (Value.vObj []))
    | CKey.financial_data_hash => yfm CKey.financial_data_hash
    | CKey.market_status => some (Value.vStr (statusStr status))
    | CKey.last_updated => some (Value.vTime now)

/-- The keys of `combined_data` that survive the null-stripping
comprehension `{k: v for k, v in combined_data.items() if v is not None}`
(line 823). -/
def presentKeys (m : CKey → Option Value) : List CKey :=
  allCKeys.filter (fun k => (m k).isSome)

/-- The final length gate of line 835:
`return combined_data if len(combined_data) > 5 else None`. -/
def lenGate (m : CKey → Option Value) : Option (CKey → Option Value) :=
  if 5 < (presentKeys m).length then some m else none

/-- The acceptance tail of `process_single_stock`
(src/update_manager.py lines 825-835): the required-fields check over
`["ticker", "price", "companyName"]` followed by the minimum-field length
gate.  `m` is the already-null-stripped combined dictionary, so `k` is
"in" the dictionary exactly when `(m k).isSome`. -/
def acceptCombined (m : CKey → Option Value) : Option (CKey → Option Value) :=
  if ¬ ((m CKey.ticker).isSome ∧ (m CKey.price).isSome ∧ (m CKey.companyName).isSome) then
    if (m CKey.ticker).isSome ∧ ((m CKey.price).isSome ∨ (m CKey.companyName).isSome) then
      lenGate m
    else none
  else lenGate m

/-- Embedding of `UpdateManager.process_single_stock`
(src/update_manager.py lines 684-839) after the three source fetches:
`yfd` is the Yahoo result, `fhd` the Finnhub result, `logo` the logo
fetch result (each `none` on failure).  When both data sources failed the
function returns `None` (lines 711-713); otherwise it builds
`combined_data`, strips nulls, and applies the acceptance tail. -/
def processSingleStock (symbol : String) (now : ℤ) (status : MarketStatus)
    (yfd fhd : Option (CKey → Option Value)) (logo : Option String) :
    Option (CKey → Option Value) :=
  match yfd, fhd with
  | none, none => none
  | _, _ => acceptCombined (combineData symbol now status yfd fhd logo)

/-! ### Storage upsert (MongoManager.update_company_data, src/database.py) -/

/-- The companies collection, modelled as a map from the `ticker` key used
in the upsert filter to the stored document. -/
def Store : Type := String → Option (CKey → Option Value)

/-- Embedding of `MongoManager.update_company_data`
(src/database.py lines 38-61): `update_one({"ticker": symbol},
{"$set": data}, upsert=True)` — the fields present in `data` overwrite the
stored document's fields, absent fields are kept, and a new document is
created when the symbol is absent. -/
def updateCompanyData (store : Store) (symbol : String)
    (data : CKey → Option Value) : Store :=
  fun s =>
    if s = symbol then
      some (fun k =>
        match data k with
        | some v => some v
        | none =>
          match store symbol with
          | some old => old k
          | none => none)
    else store s

/-! ### Auxiliary definitions for the theorems -/

/-- The ticker field of an optional merge result. -/
def extractTicker (o : Option (CKey → Option Value)) : Option Value :=
  match o with
  | some m => m CKey.ticker
  | none => none

/-- Exact registry invariant: a ticker is an active key exactly when it
has at least one live connection. -/
def strongInv (st : SubState) : Prop :=
  ∀ t, t ∈ st.keys ↔ st.conns t ≠ ∅

/-- One-directional registry invariant: every ticker with a live
connection is an active key. -/
def weakInv (st : SubState) : Prop :=
  ∀ t, st.conns t ≠ ∅ → t ∈ st.keys

/-! ### Concrete example inputs used by witnesses and counterexamples -/

/-- Stored record for the C3 counterexample: fresh, hash-matching, status
CLOSED, logo absent. -/
def dEx3 : DbData :=
  { lastUpdated := some 0, price := some 100, volume := some 1000,
    marketStatus := some MarketStatus.closed, finHash := some "h", image := none }

/-- Stored record for the amended-C3 witness: stale in the OPEN session,
hash-matching, status OPEN, logo absent. -/
def dEx3w : DbData :=
  { lastUpdated := some 0, price := some 100, volume := some 1000,
    marketStatus := some MarketStatus.open_, finHash := some "h", image := none }

/-- Stored record for the C4 witness: fresh during pre-market. -/
def dEx4 : DbData :=
  { lastUpdated := some 0, price := some 100, volume := some 1000,
    marketStatus := some MarketStatus.preMarket, finHash := some "h",
    image := some "img" }

/-- The rational 100.5, the Yahoo `volAvg` of the C5 counterexample. -/
def qEx5 : ℚ := ⟨201, 2, by norm_num, by norm_num⟩

/-- Yahoo source for the C5 counterexample: supplies only a float
`volAvg`. -/
def yfEx5 : CKey → Option Value := fun k =>
  match k with
  | CKey.volAvg => some (Value.vRat qEx5)
  | _ => none

/-- Yahoo source for the amended-C5 witness: supplies only a price. -/
def yfEx5w : CKey → Option Value := fun k =>
  match k with
  | CKey.price => some (Value.vInt 100)
  | _ => none

/-- Finnhub source for the amended-C5 witness: supplies only a company
name. -/
def fhEx5w : CKey → Option Value := fun k =>
  match k with
  | CKey.companyName => some (Value.vStr "Apple Inc.")
  | _ => none

/-- A combined map with six non-null fields (required fields present)
for the C6 witness. -/
def mEx6 : CKey → Option Value := fun k =>
  match k with
  | CKey.ticker => some (Value.vStr "AAPL")
  | CKey.price => some (Value.vInt 100)
  | CKey.companyName => some (Value.vStr "Apple Inc.")
  | CKey.quote => some (Value.vObj [])
  | CKey.market_status => some (Value.vStr "open")
  | CKey.last_updated => some (Value.vTime 0)
  | _ => none

/-- A combined map with a single non-null field for the C6 witness. -/
def mEx6small : CKey → Option Value := fun k =>
  match k with
  | CKey.ticker => some (Value.vStr "AAPL")
  | _ => none

/-- A combined map with seven non-null fields but neither `price` nor
`companyName`, for the C10 witness. -/
def mEx10 : CKey → Option Value := fun k =>
  match k with
  | CKey.ticker => some (Value.vStr "AAPL")
  | CKey.beta => some (Value.vInt 1)
  | CKey.quote => some (Value.vObj [])
  | CKey.key_metrics => some (Value.vObj [])
  | CKey.ttm_ratios => some (Value.vObj [])
  | CKey.market_status => some (Value.vStr "open")
  | CKey.last_updated => some (Value.vTime 0)
  | _ => none

/-- Yahoo source for C9: a price and a company name. -/
def yfEx9 : CKey → Option Value := fun k =>
  match k with
  | CKey.price => some (Value.vInt 100)
  | CKey.companyName => some (Value.vStr "Apple Inc.")
  | _ => none

/-- The merge result for the lowercase input symbol of the C9
counterexample. -/
def merged9 : Option (CKey → Option Value) :=
  processSingleStock "aapl" 7 MarketStatus.open_ (some yfEx9) none none

/-- The combined map of the amended-C9 witness. -/
def combined9w : CKey → Option Value :=
  combineData "AAPL" 7 MarketStatus.open_ (some yfEx9) none none

/-- Registry with one subscriber on ticker A, for the C8 counterexample. -/
def stEx8 : SubState := subscribe SubState.initial "A" 0

/-- Registry with two subscribers on ticker A, for the C7 witness. -/
def stEx7 : SubState := subscribe (subscribe SubState.initial "A" 0) "A" 1

/-- Send outcome for the C7 witness: connection 1 succeeds, 0 fails. -/
def sendEx7 : ℕ → Bool := fun c => c == 1

/-! ### Helper lemmas (shared) -/

/-- Evaluating the drift test at unchanged price and volume: no drift. -/
theorem driftCheck_unchanged : driftCheck 100 1000 100 1000 = false := by
  unfold driftCheck
  simp only [Bool.or_eq_false_iff, decide_eq_false_iff_not, not_lt]
  constructor <;> norm_num

/-! ### C2 — market-status clock -/

/-- C2: for every wall-clock instant (weekday < 7, time of day `t` in
seconds), `_get_current_market_status` returns CLOSED on Saturday and
Sunday (weekday ≥ 5), and on weekdays returns PRE_MARKET exactly on
4:00 ≤ t < 9:30 ET, OPEN exactly on 9:30 ≤ t < 16:00 ET, AFTER_HOURS
exactly on 16:00 ≤ t < 20:00 ET, and CLOSED exactly on the rest of the
clock, so the weekday clock is partitioned into the four labels with
boundaries inclusive on the opening edge. -/
theorem c2_market_status_partition (weekday t : ℕ) (hw : weekday < 7) (ht : t < 86400) :
    (5 ≤ weekday → getCurrentMarketStatus weekday t = MarketStatus.closed) ∧
    (weekday < 5 →
      ((getCurrentMarketStatus weekday t = MarketStatus.preMarket ↔
          14400 ≤ t ∧ t < 34200) ∧
       (getCurrentMarketStatus weekday t = MarketStatus.open_ ↔
          34200 ≤ t ∧ t < 57600) ∧
       (getCurrentMarketStatus weekday t = MarketStatus.afterHours ↔
          57600 ≤ t ∧ t < 72000) ∧
       (getCurrentMarketStatus weekday t = MarketStatus.closed ↔
          (t < 14400 ∨ 72000 ≤ t)))) := by
  unfold getCurrentMarketStatus
  constructor
  · intro h5
    rw [if_pos h5]
  · intro h5
    rw [if_neg (by omega)]
    split_ifs with h1 h2 h3 <;>
      refine ⟨?_, ?_, ?_, ?_⟩ <;>
        first
          | exact iff_of_true rfl (by omega)
          | exact iff_of_false (by simp) (by omega)

/-- Witness for C2 at Wednesday 9:30 (OPEN) and Saturday 9:30 (CLOSED). -/
theorem c2_market_status_partition_witness :
    getCurrentMarketStatus 2 34200 = MarketStatus.open_ ∧
    getCurrentMarketStatus 5 34200 = MarketStatus.closed := by
  have h1 := c2_market_status_partition 2 34200 (by decide) (by decide)
  have h2 := c2_market_status_partition 5 34200 (by decide) (by decide)
  exact ⟨(h1.2 (by decide)).2.1.mpr (by decide), h2.1 (by decide)⟩

/-! ### C4 — below-budget records need no update -/

/-- C4: for every stored record carrying a `last_updated` timestamp whose
age is below the session-dependent staleness budget of the current market
status (CLOSED 24 h, PRE_MARKET 15 min, OPEN 5 min, AFTER_HOURS 30 min)
and whose stored `market_status` equals the current status, given no
price/volume drift and no financial-hash mismatch,
`_check_symbol_for_updates` returns false. -/
theorem c4_below_budget_no_update (cur : MarketStatus) (d : DbData) (timeSince : ℚ)
    (live : LiveFetch) (hash : HashFetch) (t0 : ℤ)
    (hlu : d.lastUpdated = some t0)
    (hts : timeSince < staleBudget cur)
    (hst : d.marketStatus = some cur)
    (hnodrift : ∀ p v dp dv, live = LiveFetch.fok p v → d.price = some dp →
      d.volume = some dv → driftCheck dp dv p v = false)
    (hnohash : hashMismatch d hash = false) :
    checkSymbolForUpdates cur (some d) timeSince live hash = false := by
  obtain ⟨lu, dpr, dvo, dms, dfh, dim⟩ := d
  simp only at hlu hst
  subst hlu hst
  cases cur <;>
    simp_all [checkSymbolForUpdates, staleBudget]

/-- Witness for C4: a record 100 s old during pre-market (budget 900 s). -/
theorem c4_below_budget_no_update_witness :
    checkSymbolForUpdates MarketStatus.preMarket (some dEx4) 100
      LiveFetch.fempty HashFetch.hempty = false :=
  c4_below_budget_no_update MarketStatus.preMarket dEx4 100
    LiveFetch.fempty HashFetch.hempty 0 rfl (by decide) rfl
    (by intro p v dp dv h; cases h) rfl

/-! ### C3 — reachability of the missing-logo check -/

/-- C3 counterexample: in the CLOSED phase, with the staleness check at
step 3 deciding false (age 100 s < 24 h and stored status CLOSED), a
matching financial hash, stored status equal to the current status, and
an absent `image`, `_check_symbol_for_updates` returns false — the
missing-logo check is never reached, contradicting the claim that it
fires under every market-status phase. -/
theorem c3_counterexample :
    dEx3.image = none ∧
    dEx3.marketStatus = some MarketStatus.closed ∧
    hashMismatch dEx3 (HashFetch.hsome "h") = false ∧
    checkSymbolForUpdates MarketStatus.closed (some dEx3) 100
      LiveFetch.fempty (HashFetch.hsome "h") = false := by
  refine ⟨rfl, rfl, by decide, by decide⟩

/-- C3 amended: the missing-logo check is reached and fires only in the
OPEN phase — when the staleness check passes its budget (age ≥ 5 min),
the live intraday fetch returns valid data, the stored price and volume
are present and truthy, no drift is detected, the financial hash does
not mismatch, and the stored `market_status` equals OPEN, then an absent
(or empty) `image` makes `_check_symbol_for_updates` return true. -/
theorem c3_amended_open_missing_logo (d : DbData) (timeSince : ℚ) (p v dp dv : ℚ)
    (hash : HashFetch) (t0 : ℤ)
    (hlu : d.lastUpdated = some t0)
    (hts : ¬ timeSince < 300)
    (hdp : d.price = some dp) (hdv : d.volume = some dv)
    (hdp0 : dp ≠ 0) (hdv0 : dv ≠ 0) (hp0 : p ≠ 0) (hv0 : v ≠ 0)
    (hnodrift : driftCheck dp dv p v = false)
    (hnohash : hashMismatch d hash = false)
    (hst : d.marketStatus = some MarketStatus.open_)
    (him : truthyStr d.image = false) :
    checkSymbolForUpdates MarketStatus.open_ (some d) timeSince
      (LiveFetch.fok p v) hash = true := by
  obtain ⟨lu, dpr, dvo, dms, dfh, dim⟩ := d
  simp only at hlu hdp hdv hst him
  subst hlu hdp hdv hst
  simp_all [checkSymbolForUpdates, checkAfterBudget, truthyNum]

/-- Witness for the amended C3: a 301-second-old OPEN record with
unchanged live price/volume, matching hash, and missing logo needs an
update. -/
theorem c3_amended_open_missing_logo_witness :
    checkSymbolForUpdates MarketStatus.open_ (some dEx3w) 301
      (LiveFetch.fok 100 1000) (HashFetch.hsome "h") = true :=
  c3_amended_open_missing_logo dEx3w 301 100 1000 100 1000
    (HashFetch.hsome "h") 0 rfl (by decide) rfl rfl
    (by decide) (by decide) (by decide) (by decide)
    driftCheck_unchanged (by decide) rfl rfl

/-! ### C1 — orchestrator re-entrancy guard -/

/-- C1: calling `_process_updates` while a run is active starts no second
run — the call appends the requested symbols to `_force_refresh_symbols`
and returns immediately with the flag untouched; once the active run has
completed (clearing the flag), the next update-loop iteration's forced
phase runs with exactly the queued symbols as its input; and a non-busy
call sets and then clears the active flag in the `finally` block whether
or not the run body raises, so at most one run is ever active. -/
theorem c1_reentrancy_guard (s : OrchState) (symbols : List String) (bodyFails : Bool)
    (hbusy : s.isUpdating = true) :
    processUpdates s symbols bodyFails =
      ({ s with forceRefresh := s.forceRefresh ++ symbols }, RunOutcome.queued) ∧
    (∀ bf2, symbols ≠ [] →
      updateLoopForcedPhase
        { isUpdating := false,
          forceRefresh := (processUpdates s symbols bodyFails).1.forceRefresh } bf2 =
        ({ isUpdating := false, forceRefresh := [] },
         some (RunOutcome.ran (s.forceRefresh ++ symbols)))) ∧
    (∀ s2 bf2, s2.isUpdating = false →
      (processUpdates s2 symbols bf2).1.isUpdating = false ∧
      (processUpdates s2 symbols bf2).2 = RunOutcome.ran symbols) := by
  have hq : processUpdates s symbols bodyFails =
      ({ s with forceRefresh := s.forceRefresh ++ symbols }, RunOutcome.queued) := by
    unfold processUpdates
    rw [if_pos hbusy]
  refine ⟨hq, ?_, ?_⟩
  · intro bf2 hsym
    rw [hq]
    rcases hcons : s.forceRefresh ++ symbols with _ | ⟨x, xs⟩
    · exact absurd (List.append_eq_nil.mp hcons).2 hsym
    · simp only [updateLoopForcedPhase, hcons, processUpdates, if_neg]
      cases bf2 <;> simp
  · intro s2 bf2 hidle
    unfold processUpdates
    rw [if_neg (by simp [hidle])]
    cases bf2 <;> exact ⟨rfl, rfl⟩

/-- Witness for C1: a busy call queues AAPL behind MSFT; once the flag
clears, the forced phase runs over both. -/
theorem c1_reentrancy_guard_witness :
    processUpdates ⟨true, ["MSFT"]⟩ ["AAPL"] false =
      (⟨true, ["MSFT", "AAPL"]⟩, RunOutcome.queued) ∧
    updateLoopForcedPhase ⟨false, ["MSFT", "AAPL"]⟩ false =
      (⟨false, []⟩, some (RunOutcome.ran ["MSFT", "AAPL"])) := by
  have h := c1_reentrancy_guard ⟨true, ["MSFT"]⟩ ["AAPL"] false rfl
  exact ⟨h.1, h.2.1 false (by simp)⟩

/-! ### C5 — merge priority -/

/-- C5 counterexample: `volAvg` is an overlapping field, the primary
source supplies the non-null float 100.5, and the merged field is the
coerced integer 100, not the primary's value — `ensure_type(..., int)`
breaks exact first-non-null-wins on this field. -/
theorem c5_counterexample :
    yfEx5 CKey.volAvg = some (Value.vRat qEx5) ∧
    combineData "AAPL" 0 MarketStatus.closed (some yfEx5) none none CKey.volAvg =
      some (Value.vInt 100) ∧
    combineData "AAPL" 0 MarketStatus.closed (some yfEx5) none none CKey.volAvg ≠
      some (Value.vRat qEx5) := by
  refine ⟨rfl, rfl, ?_⟩
  have h : combineData "AAPL" 0 MarketStatus.closed (some yfEx5) none none CKey.volAvg =
      some (Value.vInt 100) := rfl
  rw [h]
  simp

/-- C5 amended: for every overlapping field except `volAvg`, the merge is
exactly first-non-null-wins under the fixed Yahoo-before-Finnhub priority:
a non-null primary value is the merged value, and with a null primary a
non-null secondary value is the merged value.  (`volAvg` additionally
passes the first non-null value through integer coercion.)  The merge is a
pure function of the two source dictionaries, hence independent of fetch
completion order. -/
theorem c5_first_non_null_wins (yfd : CKey → Option Value)
    (fh : Option (CKey → Option Value)) (symbol : String) (now : ℤ)
    (status : MarketStatus) (logo : Option String) (k : CKey)
    (hk : k ∈ overlapKeys) (hkv : k ≠ CKey.volAvg) :
    (∀ v, yfd k = some v →
      combineData symbol now status (some yfd) fh logo k = some v) ∧
    (∀ v, yfd k = none → fhGet fh k = some v →
      combineData symbol now status (some yfd) fh logo k = some v) := by
  rcases eq_or_ne k CKey.currency with hc | hc
  · subst hc
    have hr : combineData symbol now status (some yfd) fh logo CKey.currency =
        getFirstValue3 (yfd CKey.currency) (fhGet fh CKey.currency)
          (some (Value.vStr "USD")) := rfl
    exact ⟨fun v h1 => by rw [hr, h1]; rfl, fun v h1 h2 => by rw [hr, h1, h2]; rfl⟩
  · have hr : combineData symbol now status (some yfd) fh logo k =
        getFirstValue2 (yfd k) (fhGet fh k) := by
      cases k <;>
        first
          | exact absurd rfl hkv
          | exact absurd rfl hc
          | exact absurd hk (by decide)
          | rfl
    exact ⟨fun v h1 => by rw [hr, h1]; rfl, fun v h1 h2 => by rw [hr, h1, h2]; rfl⟩

/-- Witness for the amended C5 at the `price` field (primary wins) and
the `companyName` field (secondary fills a null primary). -/
theorem c5_first_non_null_wins_witness :
    combineData "AAPL" 0 MarketStatus.closed (some yfEx5w) (some fhEx5w) none
      CKey.price = some (Value.vInt 100) ∧
    combineData "AAPL" 0 MarketStatus.closed (some yfEx5w) (some fhEx5w) none
      CKey.companyName = some (Value.vStr "Apple Inc.") := by
  have h1 := c5_first_non_null_wins yfEx5w (some fhEx5w) "AAPL" 0
    MarketStatus.closed none CKey.price (by decide) (by decide)
  have h2 := c5_first_non_null_wins yfEx5w (some fhEx5w) "AAPL" 0
    MarketStatus.closed none CKey.companyName (by decide) (by decide)
  exact ⟨h1.1 (Value.vInt 100) rfl, h2.2 (Value.vStr "Apple Inc.") rfl rfl⟩

/-! ### C6 — minimum-field threshold -/

/-- C6: after null fields are removed, a combined result with at most 5
non-null fields is rejected (the acceptance tail returns `None`), and a
result with more than 5 non-null fields that passes the required-fields
check is returned unchanged. -/
theorem c6_min_field_threshold (m : CKey → Option Value) :
    ((presentKeys m).length ≤ 5 → acceptCombined m = none) ∧
    (5 < (presentKeys m).length → (m CKey.ticker).isSome →
      ((m CKey.price).isSome ∨ (m CKey.companyName).isSome) →
      acceptCombined m = some m) := by
  unfold acceptCombined lenGate
  constructor
  · intro h
    split_ifs with h1 h2 h3 h4 <;> first | rfl | omega
  · intro h ht hpc
    split_ifs with h1 h2 <;> first | rfl | simp_all

/-- Witness for C6: a six-field map with required fields is returned, a
one-field map is rejected. -/
theorem c6_min_field_threshold_witness :
    acceptCombined mEx6 = some mEx6 ∧ acceptCombined mEx6small = none := by
  refine ⟨(c6_min_field_threshold mEx6).2 (by decide) (by decide) (Or.inl (by decide)), ?_⟩
  exact (c6_min_field_threshold mEx6small).1 (by decide)

/-! ### C10 — implicit required-fields check -/

/-- C10: the acceptance tail of `process_single_stock` enforces a
required-fields check beyond the 5-field threshold — whenever the
null-stripped combined result has neither a `price` nor a `companyName`,
the result is `None`, regardless of how many other fields are present. -/
theorem c10_required_fields_gate (m : CKey → Option Value)
    (hp : m CKey.price = none) (hn : m CKey.companyName = none) :
    acceptCombined m = none := by
  unfold acceptCombined lenGate
  simp [hp, hn]

/-- Witness for C10: a seven-field map without `price` and `companyName`
is rejected even though it exceeds the 5-field threshold. -/
theorem c10_required_fields_gate_witness :
    acceptCombined mEx10 = none ∧ 5 < (presentKeys mEx10).length :=
  ⟨c10_required_fields_gate mEx10 rfl rfl, by decide⟩

/-! ### C7 — broadcast fan-out and fault isolation -/

/-- C7: broadcasting to a ticker with zero subscribers is a no-op (no
sends attempted, state unchanged); every subscriber whose send succeeds
receives the message even when sends to other subscribers fail; and every
subscriber whose send fails is removed from that ticker's subscriber set. -/
theorem c7_broadcast_fault_isolation (st : SubState) (ticker : String)
    (sendOk : ℕ → Bool) :
    ((pyUpper ticker ∉ st.keys ∨ st.conns (pyUpper ticker) = ∅) →
      broadcast st ticker sendOk = (st, ∅, ∅)) ∧
    (∀ c, c ∈ st.conns (pyUpper ticker) → pyUpper ticker ∈ st.keys →
      sendOk c = true → c ∈ (broadcast st ticker sendOk).2.2) ∧
    (∀ c, c ∈ st.conns (pyUpper ticker) → pyUpper ticker ∈ st.keys →
      sendOk c = false →
      c ∉ (broadcast st ticker sendOk).1.conns (pyUpper ticker)) := by
  refine ⟨?_, ?_, ?_⟩
  · intro h
    simp only [broadcast]
    rcases h with h | h
    · rw [if_neg h]
      simp
    · by_cases hk : pyUpper ticker ∈ st.keys
      · rw [if_pos hk, h]
        simp
      · rw [if_neg hk]
        simp
  · intro c hc hk hok
    simp only [broadcast]
    rw [if_pos hk]
    have hne : st.conns (pyUpper ticker) ≠ ∅ := Finset.ne_empty_of_mem hc
    rw [if_neg hne]
    have hmem : c ∈ (st.conns (pyUpper ticker)).filter (fun c => sendOk c) :=
      Finset.mem_filter.mpr ⟨hc, by simp [hok]⟩
    by_cases hd : (st.conns (pyUpper ticker)).filter (fun c => ¬ sendOk c) = ∅
    · rw [if_pos hd]
      exact hmem
    · rw [if_neg hd]
      exact hmem
  · intro c hc hk hfail
    simp only [broadcast]
    rw [if_pos hk]
    have hne : st.conns (pyUpper ticker) ≠ ∅ := Finset.ne_empty_of_mem hc
    rw [if_neg hne]
    have hcd : c ∈ (st.conns (pyUpper ticker)).filter (fun c => ¬ sendOk c) :=
      Finset.mem_filter.mpr ⟨hc, by simp [hfail]⟩
    have hd : (st.conns (pyUpper ticker)).filter (fun c => ¬ sendOk c) ≠ ∅ :=
      Finset.ne_empty_of_mem hcd
    rw [if_neg hd]
    simp only [Finset.mem_sdiff, if_pos]
    intro hcontra
    rcases hcontra with ⟨-, hnd⟩
    exact hnd hcd

/-- Witness for C7: broadcasting an unsubscribed ticker is a no-op; with
subscribers 0 and 1 on ticker A and the send to 0 failing, 1 still
receives the message and 0 is removed from A's subscriber set. -/
theorem c7_broadcast_fault_isolation_witness :
    broadcast SubState.initial "B" (fun _ => true) = (SubState.initial, ∅, ∅) ∧
    1 ∈ (broadcast stEx7 "A" sendEx7).2.2 ∧
    0 ∉ (broadcast stEx7 "A" sendEx7).1.conns (pyUpper "A") := by
  have h0 := c7_broadcast_fault_isolation SubState.initial "B" (fun _ => true)
  have h1 := c7_broadcast_fault_isolation stEx7 "A" sendEx7
  exact ⟨h0.1 (Or.inl (by decide)),
         h1.2.1 1 (by decide) (by decide) rfl,
         h1.2.2 0 (by decide) (by decide) rfl⟩

/-! ### C8 — active-ticker registry invariant -/

/-- C8 counterexample: after subscribing connection 0 to ticker A and then
broadcasting with the send to 0 failing, the ticker's last connection has
been removed yet A is still returned by `get_active_tickers` — the entry
is not pruned by the failed-send path, so the active set is not exactly
the tickers with at least one live connection. -/
theorem c8_counterexample :
    pyUpper "A" ∈ getActiveTickers (broadcast stEx8 "A" (fun _ => false)).1 ∧
    (broadcast stEx8 "A" (fun _ => false)).1.conns (pyUpper "A") = ∅ := by
  constructor <;> decide

/-- C8 amended: under `subscribe` and `unsubscribe` the active-ticker set
is exactly the tickers with at least one live connection — an entry is
created on first subscribe (the subscribed ticker is active and has a
connection) and pruned when `unsubscribe` removes the last connection.
`broadcast` removes failed connections but never prunes the entry, so it
preserves only the inclusion that every ticker with a live connection is
active; the converse can fail after a failed send (see the
counterexample). -/
theorem c8_registry_invariants (st : SubState) (hinv : strongInv st) :
    (∀ t c, strongInv (subscribe st t c)) ∧
    (∀ t c, pyUpper t ∈ getActiveTickers (subscribe st t c) ∧
      (subscribe st t c).conns (pyUpper t) ≠ ∅) ∧
    (∀ t c, strongInv (unsubscribe st t c)) ∧
    (∀ t f, weakInv (broadcast st t f).1) := by
  refine ⟨?_, ?_, ?_, ?_⟩
  · intro t c x
    simp only [subscribe]
    by_cases hx : x = pyUpper t
    · subst hx
      simp
    · rw [if_neg hx, Finset.mem_insert]
      constructor
      · rintro (h | h)
        · exact absurd h hx
        · exact (hinv x).mp h
      · intro h
        exact Or.inr ((hinv x).mpr h)
  · intro t c
    simp only [subscribe, getActiveTickers]
    constructor
    · exact Finset.mem_insert_self _ _
    · simp
  · intro t c x
    simp only [unsubscribe]
    by_cases hk : pyUpper t ∈ st.keys
    · rw [if_pos hk]
      by_cases he : (st.conns (pyUpper t)).erase c = ∅
      · rw [if_pos he]
        by_cases hx : x = pyUpper t
        · subst hx
          simp
        · show x ∈ st.keys.erase (pyUpper t) ↔
            (if x = pyUpper t then ∅ else st.conns x) ≠ ∅
          rw [if_neg hx, Finset.mem_erase]
          constructor
          · intro h
            exact (hinv x).mp h.2
          · intro h
            exact ⟨hx, (hinv x).mpr h⟩
      · rw [if_neg he]
        by_cases hx : x = pyUpper t
        · subst hx
          show pyUpper t ∈ st.keys ↔
            (if pyUpper t = pyUpper t then (st.conns (pyUpper t)).erase c
             else st.conns (pyUpper t)) ≠ ∅
          rw [if_pos rfl]
          exact iff_of_true hk he
        · show x ∈ st.keys ↔
            (if x = pyUpper t then (st.conns (pyUpper t)).erase c
             else st.conns x) ≠ ∅
          rw [if_neg hx]
          exact hinv x
    · rw [if_neg hk]
      exact hinv x
  · intro t f x hx
    simp only [broadcast] at hx ⊢
    by_cases hk : pyUpper t ∈ st.keys
    · rw [if_pos hk] at hx ⊢
      by_cases hce : st.conns (pyUpper t) = ∅
      · rw [if_pos hce] at hx ⊢
        exact (hinv x).mpr hx
      · rw [if_neg hce] at hx ⊢
        by_cases hd : (st.conns (pyUpper t)).filter (fun c => ¬ f c) = ∅
        · rw [if_pos hd] at hx ⊢
          exact (hinv x).mpr hx
        · rw [if_neg hd] at hx ⊢
          by_cases hxt : x = pyUpper t
          · show x ∈ insert (pyUpper t) st.keys
            rw [hxt]
            exact Finset.mem_insert_self _ _
          · show x ∈ insert (pyUpper t) st.keys
            have hx2 : st.conns x ≠ ∅ := by
              have hx3 : (if x = pyUpper t
                  then st.conns (pyUpper t) \
                    (st.conns (pyUpper t)).filter (fun c => ¬ f c)
                  else st.conns x) ≠ ∅ := hx
              rwa [if_neg hxt] at hx3
            exact Finset.mem_insert_of_mem ((hinv x).mpr hx2)
    · rw [if_neg hk] at hx ⊢
      rw [if_pos rfl] at hx ⊢
      exact (hinv x).mpr hx

/-- Witness for the amended C8: starting from the empty registry (which
satisfies the exact invariant), subscribing connection 0 to ticker A
yields a state that still satisfies it. -/
theorem c8_registry_invariants_witness :
    strongInv (subscribe SubState.initial "A" 0) :=
  (c8_registry_invariants SubState.initial
    (fun t => by simp [SubState.initial, strongInv])).1 "A" 0

/-! ### C9 — end-to-end ticker normalization -/

/-- A successful `process_single_stock` result is exactly the combined
dictionary (the acceptance tail returns the null-stripped map unchanged). -/
theorem processSingleStock_eq_combineData (symbol : String) (now : ℤ)
    (status : MarketStatus) (yfd fhd : Option (CKey → Option Value))
    (logo : Option String) (m : CKey → Option Value)
    (hm : processSingleStock symbol now status yfd fhd logo = some m) :
    m = combineData symbol now status yfd fhd logo := by
  rcases yfd with _ | g1 <;> rcases fhd with _ | g2 <;>
    simp only [processSingleStock] at hm
  · exact absurd hm (by simp)
  all_goals
    unfold acceptCombined lenGate at hm
    split_ifs at hm <;> simp_all

/-- C9 counterexample: the orchestrator does not uppercase — for the input
symbol "aapl" (absent from storage, merge succeeding with 10 non-null
fields) the merged record's ticker field is the verbatim string "aapl",
not its uppercase normalization "AAPL". -/
theorem c9_counterexample :
    extractTicker merged9 = some (Value.vStr "aapl") ∧
    pyUpper "aapl" = "AAPL" ∧
    extractTicker merged9 ≠ some (Value.vStr (pyUpper "aapl")) := by
  have h1 : extractTicker merged9 = some (Value.vStr "aapl") := rfl
  have h2 : pyUpper "aapl" = "AAPL" := by decide
  refine ⟨h1, h2, ?_⟩
  rw [h1, h2]
  intro h
  have h3 : Value.vStr "aapl" = Value.vStr "AAPL" := Option.some.inj h
  have h4 : "aapl" = "AAPL" := by injection h3
  exact absurd h4 (by decide)

/-- C9 amended: for every symbol successfully processed end-to-end (absent
from storage so `needs_update` is true, merge succeeding), the record
upserted into storage has its ticker field equal to the input symbol
verbatim (uppercasing happens only in the HTTP layer, not in the
orchestrator) and its `last_updated` field set to the time of the merge. -/
theorem c9_upserted_record_fields (symbol : String) (now : ℤ)
    (status : MarketStatus) (yfd fhd : Option (CKey → Option Value))
    (logo : Option String) (store : Store) (m : CKey → Option Value)
    (hm : processSingleStock symbol now status yfd fhd logo = some m) :
    (∀ cur ts live hash, checkSymbolForUpdates cur none ts live hash = true) ∧
    m CKey.ticker = some (Value.vStr symbol) ∧
    m CKey.last_updated = some (Value.vTime now) ∧
    (∀ rec, updateCompanyData store symbol m symbol = some rec →
      rec CKey.ticker = some (Value.vStr symbol) ∧
      rec CKey.last_updated = some (Value.vTime now)) := by
  have hcd := processSingleStock_eq_combineData symbol now status yfd fhd logo m hm
  have ht : m CKey.ticker = some (Value.vStr symbol) := by rw [hcd]; rfl
  have hl : m CKey.last_updated = some (Value.vTime now) := by rw [hcd]; rfl
  refine ⟨fun cur ts live hash => rfl, ht, hl, ?_⟩
  intro rec hrec
  unfold updateCompanyData at hrec
  rw [if_pos rfl] at hrec
  have hrec2 := Option.some.inj hrec
  subst hrec2
  constructor
  · show (match m CKey.ticker with
      | some v => some v
      | none =>
        match store symbol with
        | some old => old CKey.ticker
        | none => none) = some (Value.vStr symbol)
    rw [ht]
  · show (match m CKey.last_updated with
      | some v => some v
      | none =>
        match store symbol with
        | some old => old CKey.last_updated
        | none => none) = some (Value.vTime now)
    rw [hl]

/-- Witness for the amended C9: the merge of "AAPL" at time 7 produces a
record whose ticker is "AAPL" verbatim and whose `last_updated` is 7. -/
theorem c9_upserted_record_fields_witness :
    combined9w CKey.ticker = some (Value.vStr "AAPL") ∧
    combined9w CKey.last_updated = some (Value.vTime 7) := by
  have h := c9_upserted_record_fields "AAPL" 7 MarketStatus.open_
    (some yfEx9) none none (fun _ => none) combined9w rfl
  exact ⟨h.2.1, h.2.2.1⟩

end SynergyAlpha
